import Mathlib

/-!
Verification development for the `ExtendedSerialManager` serial-protocol
interpreter (src/extended-serial-manager/src/ExtendedSerialManager.h) with the
demo sketch `evWDRC_SingleBand.cpp` supplying a concrete configuration.

Shallow embedding conventions:
- C `float` values are modelled as exact rationals (`ℚ`); the arithmetic the
  handlers perform (`+`, `-`, `*`, `/`, comparisons) is embedded exactly.
- The knob table is flat memory: a total function from the global element
  index `channel * knobCount + knobIndex` (an `Int`, since unchecked C index
  arithmetic can go negative) to a `CONFIGURABLE` record; the externally owned
  value cells are a total function `Int → ℚ` carried in the machine state.
- Output is modelled structurally as a list of `OutLine`s, one per printed
  line: `Msg:`-prefixed human lines, bare text lines, machine value lines
  (`<letter><channel>=<value>` from `printValue`), and `ACK=1`/`ACK=0` lines.
- C strings are `List Char` without the terminator; reading one past the end
  of a C string yields the NUL character (`headC`).
- The 256-byte line buffer is a total function `Nat → Char` plus a cursor
  (`bufferPtr - buffer`); a ghost log `writes` records every index the code
  stores to, so that out-of-bounds stores are observable.
- The `apply()` and `activate()` callbacks are external side effects with no
  protocol-visible output; ghost fields count/record their invocations.
-/

/-- Session mode (`enum MODE` in the source). -/
inductive MODE where
  | Basic
  | Extended
deriving DecidableEq, Repr

/-- One configured knob (`struct CONFIGURABLE`): name, unit, bounds.  The
`float *value` cell lives in the machine state (`values`), indexed by the
knob's global element index. -/
structure CONFIGURABLE where
  name : String
  unit : String
  min : ℚ
  max : ℚ
deriving DecidableEq, Repr

/-- One printed line of serial output. -/
inductive OutLine where
  /-- a `Msg: `-prefixed human-readable line -/
  | msg : String → OutLine
  /-- a bare text line (e.g. `Unable to parse command`, a command's output) -/
  | text : String → OutLine
  /-- a machine-readable value line `<letter><channel>=<value>` as printed by
  `printValue` -/
  | value : Char → Int → ℚ → OutLine
  /-- `ACK=1` (true) or `ACK=0` (false) -/
  | ack : Bool → OutLine
deriving DecidableEq, Repr

/-- One registered basic-mode command (`struct COMMAND`).  The executor may
print lines and returns success/failure. -/
structure COMMAND where
  character : Char
  name : String
  execute : Char → Bool × List OutLine

/-- Parsed options record (`struct CMD_OPTIONS`). -/
structure CMD_OPTIONS where
  channel : Int
  knob : Int
  value : Int
deriving DecidableEq, Repr

/-- The manager's immutable configuration: knob table (flat memory),
counts, and the basic-command lookup table (`commandLut`, indexed by the
trigger character masked to 7 bits). -/
structure ExtendedSerialManager where
  knobs : Int → CONFIGURABLE
  channelCount : Nat
  knobCount : Nat
  commands : List COMMAND
  commandLut : Nat → Option (Char → Bool × List OutLine)

/-- Machine state: session mode, the 256-byte line buffer and its write
cursor, the externally owned knob value cells (by global element index), a
ghost log of buffer indices stored to, and ghost records of the `apply()` and
`activate()` callback invocations. -/
structure ESMState where
  mode : MODE
  cursor : Nat
  buf : Nat → Char
  values : Int → ℚ
  writes : List Nat
  applyCalls : Nat
  activations : List (Int × Int)

/-- The line buffer's capacity: `char buffer[256]`. -/
def bufferCapacity : Nat := 256

/-- `sizeof(CONFIGURABLE)` on the 32-bit target (Teensy/ARM): five 4-byte
fields (two `const char *`, one `float *`, two `float`). -/
def sizeofCONFIGURABLE : Nat := 20

/-- The NUL character terminating C strings. -/
def nulChar : Char := Char.ofNat 0

/-- Read the first character of a C string; past the end it is NUL. -/
def headC : List Char → Char
  | [] => nulChar
  | c :: _ => c

/-- Point-update of a value-cell map. -/
def setVal (f : Int → ℚ) (i : Int) (v : ℚ) : Int → ℚ :=
  fun j => if j = i then v else f j

/-- Point-update of the line buffer. -/
def setBuf (f : Nat → Char) (i : Nat) (c : Char) : Nat → Char :=
  fun j => if j = i then c else f j

/-- Greedy decimal scan: `while (isDigit(*ptr)) acc = acc*10 + (*ptr-'0')`.
Returns the accumulated integer and the rest of the string (starting at the
first non-digit). -/
def scanDigits (acc : Int) : List Char → Int × List Char
  | [] => (acc, [])
  | c :: cs =>
    if c.isDigit then scanDigits (acc * 10 + ((c.toNat : Int) - 48)) cs
    else (acc, c :: cs)

/-- `parseOptions`: greedy digits form the channel; the next character is the
knob letter (`(*ptr & 0x20) ? *ptr - 'a' : *ptr - 'A'`); then a digit scan
for the value.  As in the source, `ptr` is NOT advanced past the knob letter
before the value scan, so the value scan starts at the letter itself. -/
def parseOptions (options : List Char) : CMD_OPTIONS :=
  let s1 := scanDigits 0 options
  let c := headC s1.2
  let knob : Int :=
    if c.toNat &&& 0x20 ≠ 0 then (c.toNat : Int) - 97 else (c.toNat : Int) - 65
  let s2 := scanDigits 0 s1.2
  ⟨s1.1, knob, s2.1⟩

/-- `getKnob(channel, knob)`: the global element index `channel * knobCount +
knob` into the flat knob table. -/
def getKnobIdx (m : ExtendedSerialManager) (channel knob : Int) : Int :=
  channel * (m.knobCount : Int) + knob

/-- `getKnobIdentifier(knob)`: `'A' + knob`. -/
def getKnobIdentifier (knob : Int) : Char :=
  Char.ofNat (65 + knob).toNat

/-- `handleGetLayoutCommand` has an empty body: no output. -/
def getLayoutLines : List OutLine := []

/-- `printValue(knob)`: the machine value line.  The source recovers the
channel and letter from the pointer difference `knob - knobs` (the global
element index) but divides by `sizeof(CONFIGURABLE)` instead of `knobCount`:
`channel = idx / sizeof(CONFIGURABLE)`, `letter = 'A' + idx %
sizeof(CONFIGURABLE)` (C truncating division/remainder). -/
def printValueLine (idx : Int) (v : ℚ) : OutLine :=
  OutLine.value (getKnobIdentifier (Int.tmod idx (sizeofCONFIGURABLE : Int)))
    (Int.tdiv idx (sizeofCONFIGURABLE : Int)) v

/-- `printValue(knob, verb, oldVal)`: a human trace line followed by the same
machine value line. -/
def printValueVerb (k : CONFIGURABLE) (idx : Int) (verb : String) (oldVal newVal : ℚ)
    : List OutLine :=
  let n := k.name
  let u := k.unit
  let letter := getKnobIdentifier (Int.tmod idx (sizeofCONFIGURABLE : Int))
  let channel := Int.tdiv idx (sizeofCONFIGURABLE : Int)
  let old := toString oldVal
  let new := toString newVal
  [OutLine.msg s!"{verb} {n} ({letter}) on channel {channel} from {old}{u} to {new}{u} (clamped)",
   printValueLine idx newVal]

/-- `ackIfExtended()`: print `ACK=1` only in Extended mode. -/
def ackIfExtended (s : ESMState) : List OutLine :=
  if s.mode = MODE.Extended then [OutLine.ack true] else []

/-- `ackIfExtended(success)`: print `ACK=1`/`ACK=0` only in Extended mode. -/
def ackIfExtendedB (s : ESMState) (success : Bool) : List OutLine :=
  if s.mode = MODE.Extended then [OutLine.ack success] else []

/-- `handleHelpCommand`: the fixed help text, the knob listing, and the
command listing, all as `Msg:` lines. -/
def helpLines (m : ExtendedSerialManager) : List OutLine :=
  let cc := m.channelCount
  [OutLine.msg "Extended Serial Manager Help.",
   OutLine.msg s!"Channels: {cc}",
   OutLine.msg "Commands:",
   OutLine.msg "  \\; - switch to basic (legacy) mode",
   OutLine.msg "  / - switch to extended mode (note the lack of a semicolon)",
   OutLine.msg "  ?; - print this help",
   OutLine.msg "  #; - print layout JSON",
   OutLine.msg "  !<command>; - run the specified 1-character command (equivalent to basic-mode commands)",
   OutLine.msg "  ^[channel]<knob>; - activate specified knob for optionally specified channel",
   OutLine.msg "  &[channel]<knob>; - query current value for specified knob of optionally specified channel",
   OutLine.msg "  +[channel]<knob>; - increment  current value for specified knob of optionally specified channel",
   OutLine.msg "  -[channel]<knob>; - decrement current value for specified knob of optionally specified channel",
   OutLine.msg "  *[channel]<knob><value>; - set current value for specified knob of optionally specified channel as percentage of range",
   OutLine.msg "  =<channel|knob>=<comma-separated values>; - set all values for a slice (either all knobs for a channel or a particular knob for all channels)",
   OutLine.msg "Knobs:"] ++
  (List.range m.knobCount).flatMap (fun ii =>
    let k := m.knobs (ii : Int)
    let n := k.name
    let u := k.unit
    let letter := getKnobIdentifier (ii : Int)
    let lo := toString k.min
    let hi := toString k.max
    [OutLine.msg s!"  {letter} - {n} ({lo}{u}-{hi}{u})"]) ++
  [OutLine.msg "Commands:"] ++
  m.commands.flatMap (fun cmd =>
    let c := cmd.character
    let n := cmd.name
    [OutLine.msg s!"  {c} - {n}"])

/-- `handleRunCommand`: `/` and `\` switch mode and print `ACK=1`
unconditionally; `h`/`J` run help/get-layout then `ackIfExtended()`; any
other character is looked up in `commandLut` (masked to 7 bits) and the
result (failure when unregistered) is acknowledged via
`ackIfExtended(success)`. -/
def handleRunCommand (m : ExtendedSerialManager) (s : ESMState) (options : List Char) :
    ESMState × List OutLine :=
  let c := headC options
  if c = '/' then ({ s with mode := MODE.Extended }, [OutLine.ack true])
  else if c = '\\' then ({ s with mode := MODE.Basic }, [OutLine.ack true])
  else if c = 'h' then (s, helpLines m ++ ackIfExtended s)
  else if c = 'J' then (s, getLayoutLines ++ ackIfExtended s)
  else
    match m.commandLut (c.toNat &&& 0x7f) with
    | some execute =>
      let r := execute c
      (s, r.2 ++ ackIfExtendedB s r.1)
    | none => (s, ackIfExtendedB s false)

/-- `handleActivateCommand`: parse options, print the human trace line, and
invoke `activate(channel, knob)` (recorded in the ghost `activations`). -/
def handleActivateCommand (m : ExtendedSerialManager) (s : ESMState) (options : List Char) :
    ESMState × List OutLine :=
  let opts := parseOptions options
  let k := m.knobs (getKnobIdx m opts.channel opts.knob)
  let n := k.name
  let letter := getKnobIdentifier opts.knob
  let ch := opts.channel
  ({ s with activations := s.activations ++ [(opts.channel, opts.knob)] },
   [OutLine.msg s!"Activating {n} ({letter}) on channel {ch}"])

/-- The query-all output: the `Printing all values` header, then per channel
a `Channel i` header and, per knob, a human line (whose letter comes from the
loop index `jj`) followed by the `printValue` machine line (whose labels come
from the pointer-difference computation). -/
def queryAllLines (m : ExtendedSerialManager) (values : Int → ℚ) : List OutLine :=
  OutLine.msg "Printing all values" ::
    (List.range m.channelCount).flatMap (fun ii =>
      OutLine.msg s!"  Channel {ii}" ::
        (List.range m.knobCount).flatMap (fun jj =>
          let idx := getKnobIdx m (ii : Int) (jj : Int)
          let k := m.knobs idx
          let n := k.name
          let letter := getKnobIdentifier (jj : Int)
          let v := values idx
          let vs := toString v
          let u := k.unit
          [OutLine.msg s!"    {n} ({letter}) = {vs}{u}", printValueLine idx v]))

/-- `handleQueryCommand`: a leading `&` means query-all; otherwise resolve
one knob from the options and print its value line. -/
def handleQueryCommand (m : ExtendedSerialManager) (s : ESMState) (options : List Char) :
    ESMState × List OutLine :=
  if headC options = '&' then
    (s, queryAllLines m s.values)
  else
    let opts := parseOptions options
    let idx := getKnobIdx m opts.channel opts.knob
    (s, [printValueLine idx (s.values idx)])

/-- `handleIncrementCommand`: `newVal = oldVal + (max - min) * 0.05f`, stored
clamped to `max`; prints the trace + value line, then calls `apply()`. -/
def handleIncrementCommand (m : ExtendedSerialManager) (s : ESMState) (options : List Char) :
    ESMState × List OutLine :=
  let opts := parseOptions options
  let idx := getKnobIdx m opts.channel opts.knob
  let k := m.knobs idx
  let oldVal := s.values idx
  let newVal := oldVal + (k.max - k.min) * (0.05 : ℚ)
  let stored := if newVal > k.max then k.max else newVal
  ({ s with values := setVal s.values idx stored, applyCalls := s.applyCalls + 1 },
   printValueVerb k idx "Incrementing" oldVal stored)

/-- `handleDecrementCommand`: `newVal = oldVal - (max - min) * 0.05f`, stored
clamped to `min`; prints the trace + value line, then calls `apply()`. -/
def handleDecrementCommand (m : ExtendedSerialManager) (s : ESMState) (options : List Char) :
    ESMState × List OutLine :=
  let opts := parseOptions options
  let idx := getKnobIdx m opts.channel opts.knob
  let k := m.knobs idx
  let oldVal := s.values idx
  let newVal := oldVal - (k.max - k.min) * (0.05 : ℚ)
  let stored := if newVal < k.min then k.min else newVal
  ({ s with values := setVal s.values idx stored, applyCalls := s.applyCalls + 1 },
   printValueVerb k idx "Decrementing" oldVal stored)

/-- `handleSetCommand`: `newVal = min + (max - min) * (value / 100.0f)`,
stored clamped to `[min, max]`; prints the trace + value line, then calls
`apply()`. -/
def handleSetCommand (m : ExtendedSerialManager) (s : ESMState) (options : List Char) :
    ESMState × List OutLine :=
  let opts := parseOptions options
  let idx := getKnobIdx m opts.channel opts.knob
  let k := m.knobs idx
  let oldVal := s.values idx
  let newVal := k.min + (k.max - k.min) * ((opts.value : ℚ) / 100)
  let stored := if newVal < k.min then k.min else if newVal > k.max then k.max else newVal
  ({ s with values := setVal s.values idx stored, applyCalls := s.applyCalls + 1 },
   printValueVerb k idx "Setting" oldVal stored)

/-- Fraction-digit scan for `strtofQ`: each digit contributes at the next
smaller place value. -/
def scanFrac (place acc : ℚ) : List Char → ℚ × List Char
  | [] => (acc, [])
  | c :: cs =>
    if c.isDigit then
      scanFrac (place / 10) (acc + ((c.toNat : ℚ) - 48) * (place / 10)) cs
    else (acc, c :: cs)

/-- `strtof` on the decimal forms the protocol carries: optional sign,
integer digits, optional `.` and fraction digits (no exponent, hex, inf or
nan, no leading whitespace).  Returns the parsed value and the rest of the
string from the first unconsumed character, as `strtof` reports via
`endptr`. -/
def strtofQ (cs : List Char) : ℚ × List Char :=
  let sp : ℚ × List Char :=
    match cs with
    | '-' :: t => (-1, t)
    | '+' :: t => (1, t)
    | _ => (1, cs)
  let ip := scanDigits 0 sp.2
  match ip.2 with
  | '.' :: t =>
    let fp := scanFrac 1 0 t
    (sp.1 * ((ip.1 : ℚ) + fp.1), fp.2)
  | r => (sp.1 * (ip.1 : ℚ), r)

/-- The float-broadcast loop of `handleApplyCommand`: each iteration stores
`strtof(ptr, &nextPtr)` VERBATIM (no clamping) into the cell at the current
index, advances `ptr` one past the character `strtof` stopped at
(`ptr = ++nextPtr`), and steps the index by `stride` (`nextKnob += stride`).
The loop's preliminary scan of `nextPtr` to the next comma is overwritten by
`strtof` and has no effect. -/
def applyLoop (stride : Int) : Nat → (Int → ℚ) → Int → List Char → (Int → ℚ)
  | 0, vals, _, _ => vals
  | n + 1, vals, idx, ptr =>
    let r := strtofQ ptr
    applyLoop stride n (setVal vals idx r.1) (idx + stride) r.2.tail

/-- `handleApplyCommand`: greedy digits form the channel, the next character
is taken as the knob; if it is `=` the float list is broadcast across the
channel's knobs (`getKnob(channel, 0)`, stride 1, `knobCount` values),
otherwise the character is a knob letter, the following `=` is skipped, and
the list is broadcast across channels (`getKnob(0, knob)`, stride
`knobCount`, `channelCount` values).  Afterwards it runs
`handleQueryCommand("&")` and `apply()`. -/
def handleApplyCommand (m : ExtendedSerialManager) (s : ESMState) (options : List Char) :
    ESMState × List OutLine :=
  let s1 := scanDigits 0 options
  let channel := s1.1
  let knob := headC s1.2
  let afterKnob := s1.2.tail
  if knob = '=' then
    let vals2 := applyLoop 1 m.knobCount s.values (getKnobIdx m channel 0) afterKnob
    let s2 := { s with values := vals2 }
    let r := handleQueryCommand m s2 ['&']
    ({ r.1 with applyCalls := r.1.applyCalls + 1 }, r.2)
  else
    let kidx : Int :=
      if knob.toNat &&& 0x20 ≠ 0 then (knob.toNat : Int) - 97 else (knob.toNat : Int) - 65
    let ptr2 := afterKnob.tail
    let vals2 := applyLoop (m.knobCount : Int) m.channelCount s.values (getKnobIdx m 0 kidx) ptr2
    let s2 := { s with values := vals2 }
    let r := handleQueryCommand m s2 ['&']
    ({ r.1 with applyCalls := r.1.applyCalls + 1 }, r.2)

/-- `processExtendedCommand`: dispatch on the first character of the buffered
line; `\` switches to Basic with no output; an unrecognized tag prints the
human diagnostic and `ACK=0`. -/
def processExtendedCommand (m : ExtendedSerialManager) (s : ESMState) (cmd : List Char) :
    ESMState × List OutLine :=
  let c := headC cmd
  if c = '\\' then ({ s with mode := MODE.Basic }, [])
  else if c = '?' then (s, helpLines m)
  else if c = '#' then (s, getLayoutLines)
  else if c = '!' then handleRunCommand m s cmd.tail
  else if c = '^' then handleActivateCommand m s cmd.tail
  else if c = '&' then handleQueryCommand m s cmd.tail
  else if c = '+' then handleIncrementCommand m s cmd.tail
  else if c = '-' then handleDecrementCommand m s cmd.tail
  else if c = '*' then handleSetCommand m s cmd.tail
  else if c = '=' then handleApplyCommand m s cmd.tail
  else (s, [OutLine.text "Unable to parse command", OutLine.ack false])

/-- The C string held in `buffer[0..len)`: its characters up to the first
NUL. -/
def cString (buf : Nat → Char) (len : Nat) : List Char :=
  ((List.range len).map buf).takeWhile (fun c => c ≠ nulChar)

/-- `processByte`: in Basic mode every byte is a one-character run command;
in Extended mode a `;` terminates the line (store NUL at the cursor, reset
the cursor to the start, dispatch the line) and any other byte is stored at
the cursor, which advances — with NO capacity check (`*bufferPtr++ = c`).
Every buffer store is recorded in the ghost `writes` log. -/
def processByte (m : ExtendedSerialManager) (s : ESMState) (c : Char) :
    ESMState × List OutLine :=
  match s.mode with
  | MODE.Basic => handleRunCommand m s [c]
  | MODE.Extended =>
    if c = ';' then
      let buf2 := setBuf s.buf s.cursor nulChar
      let cmd := cString buf2 s.cursor
      processExtendedCommand m
        { s with buf := buf2, cursor := 0, writes := s.writes ++ [s.cursor] } cmd
    else
      ({ s with buf := setBuf s.buf s.cursor c, cursor := s.cursor + 1,
                writes := s.writes ++ [s.cursor] }, [])

/-- Feed a sequence of bytes, concatenating the output. -/
def processBytes (m : ExtendedSerialManager) (s : ESMState) : List Char → ESMState × List OutLine
  | [] => (s, [])
  | c :: cs =>
    let r := processByte m s c
    let r2 := processBytes m r.1 cs
    (r2.1, r.2 ++ r2.2)

/-- The `commandLut` built by the constructor: all slots cleared, then each
command's executor stored at its character masked to 7 bits (a later
registration overwrites an earlier one). -/
def mkCommandLut (cmds : List COMMAND) : Nat → Option (Char → Bool × List OutLine) :=
  cmds.foldl
    (fun lut cmd => fun i =>
      if i = (cmd.character.toNat &&& 0x7f) then some cmd.execute else lut i)
    (fun _ => none)

/-- The machine state right after construction: `MODE mode = Basic`,
`bufferPtr = buffer`, with the given buffer contents and knob cells. -/
def initState (buf : Nat → Char) (values : Int → ℚ) : ESMState :=
  { mode := MODE.Basic, cursor := 0, buf := buf, values := values,
    writes := [], applyCalls := 0, activations := [] }

/-- An all-NUL initial buffer. -/
def buf0 : Nat → Char := fun _ => nulChar

/-- The basic command registered by the demo sketch: prints `We did a thing`
and succeeds. -/
def runCommandExec : Char → Bool × List OutLine :=
  fun _ => (true, [OutLine.text "We did a thing"])

/-- The demo sketch's command table: `{ 'd', "do a thing", runCommand }`. -/
def demoCommands : List COMMAND :=
  [⟨'d', "do a thing", runCommandExec⟩]

/-- The demo sketch's knob table (`CONFIGURABLE options[]` in
`evWDRC_SingleBand.cpp`): seven knobs on one channel. -/
def demoKnobs : Int → CONFIGURABLE := fun i =>
  if i = 0 then ⟨"attack time", "ms", 1, 100⟩
  else if i = 1 then ⟨"release time", "ms", 10, 500⟩
  else if i = 2 then ⟨"expansion ratio", "", (0.01 : ℚ), 2⟩
  else if i = 3 then ⟨"expansion kneepoint", "dB", 0, 100⟩
  else if i = 4 then ⟨"tkgain", "dB", 0, 20⟩
  else if i = 5 then ⟨"tk", "dB", 0, 100⟩
  else ⟨"cr", "", (0.01 : ℚ), 5⟩

/-- The demo sketch's initial knob cell values, taken from the `gha`
initializer: attack 1, release 50, exp_cr 0.1, exp_end_knee 40, tkgain 0,
tk 105, cr 1. -/
def demoValues : Int → ℚ := fun i =>
  if i = 0 then 1
  else if i = 1 then 50
  else if i = 2 then (0.1 : ℚ)
  else if i = 3 then 40
  else if i = 4 then 0
  else if i = 5 then 105
  else 1

/-- The demo sketch's manager: `esm(options, 1, 7, commands, 1, ...)`. -/
def demoESM : ExtendedSerialManager :=
  ⟨demoKnobs, 1, 7, demoCommands, mkCommandLut demoCommands⟩

/-- A knob configured `min = 0`, `max = 100` (the configuration named in the
spec's worked example). -/
def knob0to100 : CONFIGURABLE := ⟨"k", "", 0, 100⟩

/-- One channel with one `0..100` knob. -/
def esm1x1 : ExtendedSerialManager :=
  ⟨fun _ => knob0to100, 1, 1, [], mkCommandLut []⟩

/-- Two channels with one `0..100` knob each (the spec's query-all
example shape). -/
def esm2x1 : ExtendedSerialManager :=
  ⟨fun _ => knob0to100, 2, 1, [], mkCommandLut []⟩

/-- One channel with two `0..100` knobs. -/
def esm1x2 : ExtendedSerialManager :=
  ⟨fun _ => knob0to100, 1, 2, [], mkCommandLut []⟩

/-- An Extended-mode state at the start of a line (fresh buffer), with the
given knob cells. -/
def extReady (vals : Int → ℚ) : ESMState :=
  { initState buf0 vals with mode := MODE.Extended }

/-- Knob cells holding 55 at global index 0 and 42 at global index 1. -/
def vals55 : Int → ℚ := fun i => if i = 0 then 55 else if i = 1 then 42 else 0

theorem scanDigits_rest_head (l : List Char) :
    ∀ acc, (headC (scanDigits acc l).2).isDigit = false := by
  induction l with
  | nil => intro acc; simp only [scanDigits, headC]; decide
  | cons c cs ih =>
    intro acc
    by_cases hd : c.isDigit
    · simp [scanDigits, hd, ih]
    · simp [scanDigits, hd, headC]

theorem scanDigits_of_head_nondigit (l : List Char) (acc : Int)
    (h : (headC l).isDigit = false) : scanDigits acc l = (acc, l) := by
  cases l with
  | nil => rfl
  | cons c cs => simp [headC] at h; simp [scanDigits, h]

/-- The value scan of `parseOptions` restarts at the knob letter, which the
channel scan already established to be a non-digit, so the parsed value is
always zero. -/
theorem parseOptions_value_eq_zero (options : List Char) :
    (parseOptions options).value = 0 := by
  have h := scanDigits_of_head_nondigit (scanDigits 0 options).2 0 (scanDigits_rest_head options 0)
  simp [parseOptions, h]

/-- Recognizer for machine-readable value lines. -/
def isValueLine : OutLine → Bool
  | OutLine.value _ _ _ => true
  | _ => false

/-- The machine-readable value lines among a command's output. -/
def valueLines (ls : List OutLine) : List OutLine :=
  ls.filter isValueLine

/-- C1: false of the code.  The claim says `*0A50;` on a knob configured
`min = 0`, `max = 100` stores `min + (max-min)*50/100 = 50` and responds
with the machine line `A0=50`.  In fact `parseOptions` never advances past
the knob letter before its value scan, so the parsed percentage is always
`0`: `*0A50` parses as `{channel 0, knob 0, value 0}`, the stored value
becomes `min = 0`, and the machine response line is `A0=0`.  The last
conjunct shows the defect is universal: every options string parses with
value `0`. -/
theorem C1_set_command_ignores_percentage :
    parseOptions ['0','A','5','0'] = ⟨0, 0, 0⟩ ∧
    knob0to100.min = 0 ∧ knob0to100.max = 100 ∧
    (processExtendedCommand esm1x1 (extReady vals55) ['*','0','A','5','0']).1.values 0 = 0 ∧
    valueLines (processExtendedCommand esm1x1 (extReady vals55) ['*','0','A','5','0']).2 =
      [OutLine.value 'A' 0 0] ∧
    (∀ options : List Char, (parseOptions options).value = 0) := by
  refine ⟨by simp +decide [parseOptions, scanDigits, headC], rfl, rfl, ?_, ?_,
    parseOptions_value_eq_zero⟩
  · simp +decide [processExtendedCommand, handleSetCommand, parseOptions, scanDigits, headC,
      getKnobIdx, esm1x1, knob0to100, extReady, initState, buf0, setVal, vals55]
  · simp +decide [processExtendedCommand, handleSetCommand, parseOptions, scanDigits, headC,
      getKnobIdx, esm1x1, knob0to100, extReady, initState, buf0, setVal, vals55,
      valueLines, isValueLine, printValueVerb, printValueLine, getKnobIdentifier,
      sizeofCONFIGURABLE, List.filter]

/-- In Extended mode a non-delimiter byte is stored at the cursor, which
advances, with no output and no capacity check. -/
theorem processByte_extended_append (m : ExtendedSerialManager) (s : ESMState) (c : Char)
    (hm : s.mode = MODE.Extended) (hc : c ≠ ';') :
    processByte m s c =
      ({ s with buf := setBuf s.buf s.cursor c, cursor := s.cursor + 1,
                writes := s.writes ++ [s.cursor] }, []) := by
  unfold processByte
  rw [hm]
  simp [hc]

/-- Feeding any run of non-delimiter bytes in Extended mode advances the
cursor by the run's length, stores at every intermediate index (however far
past the 256-byte capacity), produces no output, and reports nothing. -/
theorem processBytes_extended_fill (m : ExtendedSerialManager) :
    ∀ bs : List Char, (∀ b ∈ bs, b ≠ ';') → ∀ s : ESMState, s.mode = MODE.Extended →
      (processBytes m s bs).1.cursor = s.cursor + bs.length ∧
      (processBytes m s bs).1.writes = s.writes ++ List.range' s.cursor bs.length ∧
      (processBytes m s bs).1.mode = MODE.Extended ∧
      (processBytes m s bs).2 = [] := by
  intro bs
  induction bs with
  | nil => intro _ s hm; simp [processBytes, hm]
  | cons c cs ih =>
    intro hb s hm
    have hc : c ≠ ';' := hb c (by simp)
    have hb2 : ∀ b ∈ cs, b ≠ ';' := fun b hmem => hb b (by simp [hmem])
    have hstep := processByte_extended_append m s c hm hc
    obtain ⟨h1, h2, h3, h4⟩ :=
      ih hb2 { s with buf := setBuf s.buf s.cursor c, cursor := s.cursor + 1,
                      writes := s.writes ++ [s.cursor] } hm
    simp only [processBytes, hstep]
    refine ⟨?_, ?_, h3, by simp [h4]⟩
    · rw [h1]
      show s.cursor + 1 + cs.length = s.cursor + (c :: cs).length
      simp [List.length_cons]
      omega
    · rw [h2]
      show s.writes ++ [s.cursor] ++ List.range' (s.cursor + 1) cs.length =
        s.writes ++ List.range' s.cursor (c :: cs).length
      rw [List.length_cons, List.range'_succ, List.append_assoc]
      rfl

set_option maxRecDepth 16384 in
/-- C2: false of the code.  The claim says an append at capacity fails with
a reported `BufferOverflow` and a cursor reset.  In fact `processByte`
stores with `*bufferPtr++ = c` and never checks the capacity: after 257
non-delimiter bytes the cursor stands at 257 (never reset), index 256 — one
past the end of the 256-byte buffer — has been written to, and no line of
any kind (in particular no overflow report) was emitted. -/
theorem C2_overflow_writes_past_capacity :
    (processBytes demoESM (extReady demoValues) (List.replicate 257 'x')).1.cursor = 257 ∧
    bufferCapacity ∈
      (processBytes demoESM (extReady demoValues) (List.replicate 257 'x')).1.writes ∧
    (processBytes demoESM (extReady demoValues) (List.replicate 257 'x')).2 = [] := by
  obtain ⟨h1, h2, h3, h4⟩ :=
    processBytes_extended_fill demoESM (List.replicate 257 'x')
      (by intro b hmem; simp at hmem; simp [hmem]) (extReady demoValues) rfl
  refine ⟨by simpa [extReady, initState, buf0] using h1, ?_, h4⟩
  rw [h2]
  show bufferCapacity ∈ ([] : List ℕ) ++ List.range' 0 257
  decide

/-- C3: false of the code.  On two channels of one knob each, `&&;` does
emit exactly `channelCount * knobCount = 2` machine value lines in
channel-major order, but `printValue` recovers the labels by dividing the
element index by `sizeof(CONFIGURABLE)` (20) instead of `knobCount`, so the
second knob's line is labelled `B0` (letter `'A' + 1 % 20`, channel
`1 / 20 = 0`) where the claim requires `A1` (letter `'A' +` knob index,
channel index `1`). -/
theorem C3_query_all_mislabels_lines :
    valueLines (processBytes esm2x1 (extReady vals55) ['&','&',';']).2 =
      [OutLine.value 'A' 0 55, OutLine.value 'B' 0 42] ∧
    (valueLines (processBytes esm2x1 (extReady vals55) ['&','&',';']).2).length =
      esm2x1.channelCount * esm2x1.knobCount ∧
    OutLine.value 'B' 0 42 ≠ OutLine.value 'A' 1 42 := by
  exact ⟨by decide, by decide, by decide⟩

/-- In Basic mode every byte goes straight to the run-command handler. -/
theorem processByte_basic (m : ExtendedSerialManager) (s : ESMState) (c : Char)
    (hm : s.mode = MODE.Basic) :
    processByte m s c = handleRunCommand m s [c] := by
  unfold processByte
  rw [hm]

/-- C4 as stated is false: in Basic mode the failure acknowledgement goes
through `ackIfExtended(false)`, which prints nothing unless the session is
Extended.  The byte `z` is not a reserved character (`/`, `\`, `h`, `J`),
has no registered executor in the demo configuration, and processing it in
Basic mode emits NO output at all — in particular no `ACK=0` line. -/
theorem C4_counterexample_basic_mode_silent :
    demoESM.commandLut ('z'.toNat &&& 0x7f) = none ∧
    (initState buf0 demoValues).mode = MODE.Basic ∧
    (processByte demoESM (initState buf0 demoValues) 'z').2 = [] ∧
    OutLine.ack false ∉ (processByte demoESM (initState buf0 demoValues) 'z').2 := by
  refine ⟨rfl, rfl, rfl, ?_⟩
  intro h
  simp only [processByte, initState, buf0, handleRunCommand, headC] at h
  revert h
  decide

/-- C4 amended: dispatching a command whose leading character is not a
recognized tag in Extended mode emits the diagnostic and `ACK=0`; a byte
that is not reserved and has no registered executor, processed in Basic
mode, produces no output at all (the failure acknowledgement is suppressed
outside Extended mode). -/
theorem C4_amended_unrecognized_dispatch :
    (∀ (m : ExtendedSerialManager) (s : ESMState) (cmd : List Char),
      headC cmd ∉ ['\\', '?', '#', '!', '^', '&', '+', '-', '*', '='] →
      (processExtendedCommand m s cmd).2 =
        [OutLine.text "Unable to parse command", OutLine.ack false]) ∧
    (∀ (m : ExtendedSerialManager) (s : ESMState) (c : Char),
      s.mode = MODE.Basic → c ∉ ['/', '\\', 'h', 'J'] →
      m.commandLut (c.toNat &&& 0x7f) = none →
      (processByte m s c).2 = []) := by
  constructor
  · intro m s cmd h
    simp only [List.mem_cons, List.not_mem_nil, or_false, not_or] at h
    obtain ⟨h1, h2, h3, h4, h5, h6, h7, h8, h9, h10⟩ := h
    simp [processExtendedCommand, h1, h2, h3, h4, h5, h6, h7, h8, h9, h10]
  · intro m s c hm hres hlut
    simp only [List.mem_cons, List.not_mem_nil, or_false, not_or] at hres
    obtain ⟨r1, r2, r3, r4⟩ := hres
    rw [processByte_basic m s c hm]
    simp [handleRunCommand, headC, r1, r2, r3, r4, hlut, ackIfExtendedB, hm]

/-- Witness for `C4_amended_unrecognized_dispatch` at the unregistered,
non-reserved byte `z`. -/
theorem C4_amended_unrecognized_dispatch_witness :
    (processExtendedCommand demoESM (extReady demoValues) ['z']).2 =
      [OutLine.text "Unable to parse command", OutLine.ack false] ∧
    (processByte demoESM (initState buf0 demoValues) 'z').2 = [] :=
  ⟨C4_amended_unrecognized_dispatch.1 demoESM (extReady demoValues) ['z'] (by decide),
   C4_amended_unrecognized_dispatch.2 demoESM (initState buf0 demoValues) 'z' rfl
     (by decide) rfl⟩

/-- C5: confirmed.  The session starts in Basic mode; the byte `/` in Basic
mode switches to Extended and emits `ACK=1`; the complete command `\;`
received at the start of a line in Extended mode switches to Basic and
emits nothing. -/
theorem C5_mode_start_and_switches :
    (∀ (buf : Nat → Char) (vals : Int → ℚ), (initState buf vals).mode = MODE.Basic) ∧
    (∀ (m : ExtendedSerialManager) (s : ESMState), s.mode = MODE.Basic →
      (processByte m s '/').1.mode = MODE.Extended ∧
      (processByte m s '/').2 = [OutLine.ack true]) ∧
    (∀ (m : ExtendedSerialManager) (s : ESMState), s.mode = MODE.Extended → s.cursor = 0 →
      (processBytes m s ['\\', ';']).1.mode = MODE.Basic ∧
      (processBytes m s ['\\', ';']).2 = []) := by
  refine ⟨fun _ _ => rfl, ?_, ?_⟩
  · intro m s hm
    rw [processByte_basic m s '/' hm]
    exact ⟨rfl, rfl⟩
  · intro m s hm hc
    have h1 := processByte_extended_append m s '\\' hm (by decide)
    simp only [processBytes, h1]
    simp +decide [processByte, processExtendedCommand, cString, setBuf, nulChar, headC, hc, hm,
      List.range_succ, List.range_zero]

/-- Witness for `C5_mode_start_and_switches` at the demo configuration. -/
theorem C5_mode_start_and_switches_witness :
    (processByte demoESM (initState buf0 demoValues) '/').1.mode = MODE.Extended ∧
    (processBytes demoESM (extReady demoValues) ['\\', ';']).1.mode = MODE.Basic ∧
    (processBytes demoESM (extReady demoValues) ['\\', ';']).2 = [] :=
  ⟨(C5_mode_start_and_switches.2.1 demoESM (initState buf0 demoValues) rfl).1,
   (C5_mode_start_and_switches.2.2 demoESM (extReady demoValues) rfl rfl).1,
   (C5_mode_start_and_switches.2.2 demoESM (extReady demoValues) rfl rfl).2⟩

/-- C9: confirmed.  A mode switch routed through the run-command handler
(`!/;` or `!\;` in Extended mode) performs the switch and unconditionally
prints `ACK=1` (a direct `println`, not `ackIfExtended`), whereas the bare
extended command `\;` switches to Basic and prints nothing. -/
theorem C9_run_mode_switch_is_acked :
    ∀ (m : ExtendedSerialManager) (s : ESMState), s.mode = MODE.Extended → s.cursor = 0 →
      ((processBytes m s ['!', '/', ';']).1.mode = MODE.Extended ∧
        (processBytes m s ['!', '/', ';']).2 = [OutLine.ack true]) ∧
      ((processBytes m s ['!', '\\', ';']).1.mode = MODE.Basic ∧
        (processBytes m s ['!', '\\', ';']).2 = [OutLine.ack true]) ∧
      ((processBytes m s ['\\', ';']).1.mode = MODE.Basic ∧
        (processBytes m s ['\\', ';']).2 = []) := by
  intro m s hm hc
  have ha1 := processByte_extended_append m s '!' hm (by decide)
  have hb1 := processByte_extended_append m s '\\' hm (by decide)
  have ha2 := processByte_extended_append m
    { s with buf := setBuf s.buf s.cursor '!', cursor := s.cursor + 1,
             writes := s.writes ++ [s.cursor] } '/' hm (by decide)
  have hb2 := processByte_extended_append m
    { s with buf := setBuf s.buf s.cursor '!', cursor := s.cursor + 1,
             writes := s.writes ++ [s.cursor] } '\\' hm (by decide)
  refine ⟨?_, ?_, ?_⟩ <;>
    simp +decide [processBytes, ha1, hb1, ha2, hb2, processByte, processExtendedCommand,
      handleRunCommand, cString, setBuf, nulChar, headC, ackIfExtended, ackIfExtendedB,
      hm, hc, List.range_succ, List.range_zero]

/-- Witness for `C9_run_mode_switch_is_acked` at the demo configuration. -/
theorem C9_run_mode_switch_is_acked_witness :
    (processBytes demoESM (extReady demoValues) ['!', '/', ';']).2 = [OutLine.ack true] ∧
    (processBytes demoESM (extReady demoValues) ['!', '\\', ';']).1.mode = MODE.Basic ∧
    (processBytes demoESM (extReady demoValues) ['!', '\\', ';']).2 = [OutLine.ack true] :=
  ⟨(C9_run_mode_switch_is_acked demoESM (extReady demoValues) rfl rfl).1.2,
   (C9_run_mode_switch_is_acked demoESM (extReady demoValues) rfl rfl).2.1.1,
   (C9_run_mode_switch_is_acked demoESM (extReady demoValues) rfl rfl).2.1.2⟩

/-- C10: confirmed.  A `;` arriving in Extended mode with an empty line
buffer dispatches the empty command (its first character is the NUL
terminator), which is unrecognized, so the diagnostic and `ACK=0` are
emitted; the session stays Extended with the cursor reset to the start of
the buffer. -/
theorem C10_empty_command_negative_ack :
    ∀ (m : ExtendedSerialManager) (s : ESMState), s.mode = MODE.Extended → s.cursor = 0 →
      (processByte m s ';').2 =
        [OutLine.text "Unable to parse command", OutLine.ack false] ∧
      (processByte m s ';').1.mode = MODE.Extended ∧
      (processByte m s ';').1.cursor = 0 := by
  intro m s hm hc
  refine ⟨?_, ?_, ?_⟩ <;>
    simp +decide [processByte, processExtendedCommand, cString, setBuf, nulChar, headC,
      hm, hc, List.range_zero]

/-- Witness for `C10_empty_command_negative_ack` at the demo
configuration. -/
theorem C10_empty_command_negative_ack_witness :
    (processByte demoESM (extReady demoValues) ';').2 =
      [OutLine.text "Unable to parse command", OutLine.ack false] ∧
    (processByte demoESM (extReady demoValues) ';').1.mode = MODE.Extended :=
  ⟨(C10_empty_command_negative_ack demoESM (extReady demoValues) rfl rfl).1,
   (C10_empty_command_negative_ack demoESM (extReady demoValues) rfl rfl).2.1⟩

/-- Apply an options-taking handler repeatedly, discarding printed output. -/
def iterCmd (h : ESMState → List Char → ESMState × List OutLine) (options : List Char) :
    Nat → ESMState → ESMState
  | 0, s => s
  | n + 1, s => iterCmd h options n (h s options).1

/-- C6: confirmed.  Increment stores `old + 0.05*(max-min)` clamped to
`max`, decrement stores `old - 0.05*(max-min)` clamped to `min`, and any
positive number of repeated increments (resp. decrements) leaves the stored
value at most `max` (resp. at least `min`). -/
theorem C6_increment_decrement_clamp :
    ∀ (m : ExtendedSerialManager) (s : ESMState) (options : List Char) (idx : Int),
      idx = getKnobIdx m (parseOptions options).channel (parseOptions options).knob →
      ((handleIncrementCommand m s options).1.values idx =
        min (s.values idx + (0.05 : ℚ) * ((m.knobs idx).max - (m.knobs idx).min))
          (m.knobs idx).max) ∧
      ((handleDecrementCommand m s options).1.values idx =
        max (s.values idx - (0.05 : ℚ) * ((m.knobs idx).max - (m.knobs idx).min))
          (m.knobs idx).min) ∧
      (∀ n : ℕ, 1 ≤ n →
        (iterCmd (handleIncrementCommand m) options n s).values idx ≤ (m.knobs idx).max) ∧
      (∀ n : ℕ, 1 ≤ n →
        (m.knobs idx).min ≤ (iterCmd (handleDecrementCommand m) options n s).values idx) := by
  intro m s options idx hidx
  have hinc : ∀ s' : ESMState, (handleIncrementCommand m s' options).1.values idx =
      min (s'.values idx + (0.05 : ℚ) * ((m.knobs idx).max - (m.knobs idx).min))
        (m.knobs idx).max := by
    intro s'
    subst hidx
    simp only [handleIncrementCommand, setVal, if_pos]
    have harith : s'.values (getKnobIdx m (parseOptions options).channel
          (parseOptions options).knob) +
        (0.05 : ℚ) * ((m.knobs (getKnobIdx m (parseOptions options).channel
          (parseOptions options).knob)).max -
          (m.knobs (getKnobIdx m (parseOptions options).channel
            (parseOptions options).knob)).min) =
        s'.values (getKnobIdx m (parseOptions options).channel (parseOptions options).knob) +
        ((m.knobs (getKnobIdx m (parseOptions options).channel
          (parseOptions options).knob)).max -
          (m.knobs (getKnobIdx m (parseOptions options).channel
            (parseOptions options).knob)).min) * (0.05 : ℚ) := by ring
    rw [harith]
    split_ifs with h
    · exact (min_eq_right (le_of_lt h)).symm
    · exact (min_eq_left (not_lt.mp h)).symm
  have hdec : ∀ s' : ESMState, (handleDecrementCommand m s' options).1.values idx =
      max (s'.values idx - (0.05 : ℚ) * ((m.knobs idx).max - (m.knobs idx).min))
        (m.knobs idx).min := by
    intro s'
    subst hidx
    simp only [handleDecrementCommand, setVal, if_pos]
    have harith : s'.values (getKnobIdx m (parseOptions options).channel
          (parseOptions options).knob) -
        (0.05 : ℚ) * ((m.knobs (getKnobIdx m (parseOptions options).channel
          (parseOptions options).knob)).max -
          (m.knobs (getKnobIdx m (parseOptions options).channel
            (parseOptions options).knob)).min) =
        s'.values (getKnobIdx m (parseOptions options).channel (parseOptions options).knob) -
        ((m.knobs (getKnobIdx m (parseOptions options).channel
          (parseOptions options).knob)).max -
          (m.knobs (getKnobIdx m (parseOptions options).channel
            (parseOptions options).knob)).min) * (0.05 : ℚ) := by ring
    rw [harith]
    split_ifs with h
    · exact (max_eq_right (le_of_lt h)).symm
    · exact (max_eq_left (not_lt.mp h)).symm
  have hbInc : ∀ n : ℕ, ∀ s' : ESMState,
      (iterCmd (handleIncrementCommand m) options (n + 1) s').values idx ≤
        (m.knobs idx).max := by
    intro n
    induction n with
    | zero =>
      intro s'
      show (handleIncrementCommand m s' options).1.values idx ≤ (m.knobs idx).max
      rw [hinc s']
      exact min_le_right _ _
    | succ k ihk =>
      intro s'
      exact ihk (handleIncrementCommand m s' options).1
  have hbDec : ∀ n : ℕ, ∀ s' : ESMState,
      (m.knobs idx).min ≤
        (iterCmd (handleDecrementCommand m) options (n + 1) s').values idx := by
    intro n
    induction n with
    | zero =>
      intro s'
      show (m.knobs idx).min ≤ (handleDecrementCommand m s' options).1.values idx
      rw [hdec s']
      exact le_max_right _ _
    | succ k ihk =>
      intro s'
      exact ihk (handleDecrementCommand m s' options).1
  refine ⟨hinc s, hdec s, ?_, ?_⟩
  · intro n hn
    cases n with
    | zero => omega
    | succ k => exact hbInc k s
  · intro n hn
    cases n with
    | zero => omega
    | succ k => exact hbDec k s

/-- Witness for `C6_increment_decrement_clamp`: the demo attack-time knob
(`min 1`, `max 100`), addressed by options `0A`, at global index `0`. -/
theorem C6_increment_decrement_clamp_witness :
    ((handleIncrementCommand demoESM (extReady demoValues) ['0','A']).1.values 0 =
      min ((extReady demoValues).values 0 +
        (0.05 : ℚ) * ((demoESM.knobs 0).max - (demoESM.knobs 0).min)) (demoESM.knobs 0).max) ∧
    (iterCmd (handleIncrementCommand demoESM) ['0','A'] 3 (extReady demoValues)).values 0 ≤
      (demoESM.knobs 0).max ∧
    (demoESM.knobs 0).min ≤
      (iterCmd (handleDecrementCommand demoESM) ['0','A'] 3 (extReady demoValues)).values 0 :=
  ⟨(C6_increment_decrement_clamp demoESM (extReady demoValues) ['0','A'] 0 (by decide)).1,
   (C6_increment_decrement_clamp demoESM (extReady demoValues) ['0','A'] 0
     (by decide)).2.2.1 3 (by norm_num),
   (C6_increment_decrement_clamp demoESM (extReady demoValues) ['0','A'] 0
     (by decide)).2.2.2 3 (by norm_num)⟩

/-- C8: confirmed.  When neither clamp boundary is hit (the incremented
value stays at most `max` and the starting value is at least `min`),
incrementing and then decrementing the same knob restores the exact
starting value — exact in the rational model of float arithmetic. -/
theorem C8_increment_then_decrement_roundtrip :
    ∀ (m : ExtendedSerialManager) (s : ESMState) (options : List Char) (idx : Int),
      idx = getKnobIdx m (parseOptions options).channel (parseOptions options).knob →
      s.values idx + (0.05 : ℚ) * ((m.knobs idx).max - (m.knobs idx).min) ≤
        (m.knobs idx).max →
      (m.knobs idx).min ≤ s.values idx →
      (handleDecrementCommand m (handleIncrementCommand m s options).1 options).1.values idx =
        s.values idx := by
  intro m s options idx hidx h1 h2
  subst hidx
  simp only [handleIncrementCommand, handleDecrementCommand, setVal, if_pos]
  split_ifs with hA hB hC <;> linarith

/-- Witness for `C8_increment_then_decrement_roundtrip` at the demo
attack-time knob (stored value 1, `min 1`, `max 100`). -/
theorem C8_increment_then_decrement_roundtrip_witness :
    (handleDecrementCommand demoESM
        (handleIncrementCommand demoESM (extReady demoValues) ['0','A']).1
        ['0','A']).1.values 0 =
      (extReady demoValues).values 0 :=
  C8_increment_then_decrement_roundtrip demoESM (extReady demoValues) ['0','A'] 0
    (by decide)
    (by norm_num [extReady, initState, demoValues, demoESM, demoKnobs])
    (by norm_num [extReady, initState, demoValues, demoESM, demoKnobs])

/-- The floats the broadcast loop's parse chain reads, in order: each is
`strtof` of the current position, and parsing resumes one character past
where `strtof` stopped. -/
def parseFloatList : Nat → List Char → List ℚ
  | 0, _ => []
  | n + 1, cs =>
    let r := strtofQ cs
    r.1 :: parseFloatList n r.2.tail

theorem applyLoop_untouched (stride : Int) :
    ∀ (n : Nat) (vals : Int → ℚ) (idx : Int) (ptr : List Char) (p : Int),
      (∀ i : Nat, i < n → p ≠ idx + (i : Int) * stride) →
      applyLoop stride n vals idx ptr p = vals p := by
  intro n
  induction n with
  | zero => intro vals idx ptr p _; rfl
  | succ k ih =>
    intro vals idx ptr p hp
    have hrec : ∀ i : Nat, i < k → p ≠ (idx + stride) + (i : Int) * stride := by
      intro i hi hceq
      exact hp (i + 1) (by omega) (by rw [hceq]; push_cast; ring)
    have h0 : p ≠ idx := by simpa using hp 0 (by omega)
    show applyLoop stride k (setVal vals idx (strtofQ ptr).1) (idx + stride)
        (strtofQ ptr).2.tail p = vals p
    rw [ih (setVal vals idx (strtofQ ptr).1) (idx + stride) (strtofQ ptr).2.tail p hrec]
    simp [setVal, h0]

theorem applyLoop_values (stride : Int) (hs : stride ≠ 0) :
    ∀ (n : Nat) (vals : Int → ℚ) (idx : Int) (ptr : List Char) (j : Nat), j < n →
      applyLoop stride n vals idx ptr (idx + (j : Int) * stride) =
        (parseFloatList n ptr).getD j 0 := by
  intro n
  induction n with
  | zero => intro vals idx ptr j hj; omega
  | succ k ih =>
    intro vals idx ptr j hj
    cases j with
    | zero =>
      have huntouched : applyLoop stride k (setVal vals idx (strtofQ ptr).1) (idx + stride)
          (strtofQ ptr).2.tail idx = setVal vals idx (strtofQ ptr).1 idx := by
        apply applyLoop_untouched
        intro i hi hceq
        have hsum : stride + (i : Int) * stride = 0 := by linarith
        have hz : ((i : Int) + 1) * stride = 0 := by
          calc ((i : Int) + 1) * stride = stride + (i : Int) * stride := by ring
            _ = 0 := hsum
        rcases mul_eq_zero.mp hz with hL | hR
        · have : (0 : Int) ≤ (i : Int) := Int.natCast_nonneg i
          omega
        · exact hs hR
      show applyLoop stride k (setVal vals idx (strtofQ ptr).1) (idx + stride)
          (strtofQ ptr).2.tail (idx + ((0 : ℕ) : Int) * stride) =
        (parseFloatList (k + 1) ptr).getD 0 0
      have hix : idx + ((0 : ℕ) : Int) * stride = idx := by push_cast; ring
      rw [hix, huntouched]
      simp [setVal, parseFloatList]
    | succ j =>
      have hix : idx + ((j + 1 : ℕ) : Int) * stride = (idx + stride) + (j : Int) * stride := by
        push_cast; ring
      show applyLoop stride k (setVal vals idx (strtofQ ptr).1) (idx + stride)
          (strtofQ ptr).2.tail (idx + ((j + 1 : ℕ) : Int) * stride) =
        (parseFloatList (k + 1) ptr).getD (j + 1) 0
      rw [hix, ih (setVal vals idx (strtofQ ptr).1) (idx + stride) (strtofQ ptr).2.tail j
        (by omega)]
      simp [parseFloatList]

/-- C7: confirmed.  The apply slice-broadcast stores every parsed float
verbatim — no min/max clamping — into the targeted cells (channel-slice
form `=<ch>=v,...` with stride 1, knob-slice form `=<letter>=v,...` with
stride `knobCount`), and its entire output is the full query-all listing of
the updated values.  The last conjunct exhibits the missing clamp: on a
`0..100` knob, broadcasting `999` stores `999`. -/
theorem C7_apply_broadcast_unclamped_then_query_all :
    (∀ (m : ExtendedSerialManager) (s : ESMState) (options : List Char) (ch : Int)
        (rest : List Char),
      scanDigits 0 options = (ch, '=' :: rest) →
      ∀ j : Nat, j < m.knobCount →
        (handleApplyCommand m s options).1.values (getKnobIdx m ch 0 + (j : Int)) =
          (parseFloatList m.knobCount rest).getD j 0) ∧
    (∀ (m : ExtendedSerialManager) (s : ESMState) (options : List Char) (ch : Int)
        (k : Char) (rest : List Char),
      scanDigits 0 options = (ch, k :: rest) → k ≠ '=' → 0 < m.knobCount →
      ∀ j : Nat, j < m.channelCount →
        (handleApplyCommand m s options).1.values
            (getKnobIdx m 0 (if k.toNat &&& 0x20 ≠ 0 then (k.toNat : Int) - 97
              else (k.toNat : Int) - 65) + (j : Int) * (m.knobCount : Int)) =
          (parseFloatList m.channelCount rest.tail).getD j 0) ∧
    (∀ (m : ExtendedSerialManager) (s : ESMState) (options : List Char),
      (handleApplyCommand m s options).2 =
        queryAllLines m (handleApplyCommand m s options).1.values) ∧
    ((handleApplyCommand esm1x2 (extReady vals55)
        ['0', '=', '9', '9', '9', ',', '7']).1.values 0 = 999 ∧
      (999 : ℚ) > knob0to100.max ∧
      (handleApplyCommand esm1x2 (extReady vals55)
        ['0', '=', '9', '9', '9', ',', '7']).1.values 1 = 7) := by
  refine ⟨?_, ?_, ?_, ?_, by norm_num [knob0to100], ?_⟩
  · intro m s options ch rest hscan j hj
    have h := applyLoop_values 1 one_ne_zero m.knobCount s.values (getKnobIdx m ch 0) rest j hj
    simp [handleApplyCommand, hscan, headC, handleQueryCommand]
    simpa using h
  · intro m s options ch k rest hscan hk hkc j hj
    have hstride : (m.knobCount : Int) ≠ 0 := by
      simpa using Nat.pos_iff_ne_zero.mp hkc
    have h := applyLoop_values (m.knobCount : Int) hstride m.channelCount s.values
      (getKnobIdx m 0 (if k.toNat &&& 0x20 ≠ 0 then (k.toNat : Int) - 97
        else (k.toNat : Int) - 65)) rest.tail j hj
    simp [handleApplyCommand, hscan, headC, handleQueryCommand, hk]
    simpa using h
  · intro m s options
    simp [handleApplyCommand, handleQueryCommand, headC]
    split_ifs <;> rfl
  · simp +decide [handleApplyCommand, scanDigits, headC, handleQueryCommand, applyLoop,
      strtofQ, scanFrac, setVal, getKnobIdx, esm1x2, extReady, initState, buf0, vals55]
  · simp +decide [handleApplyCommand, scanDigits, headC, handleQueryCommand, applyLoop,
      strtofQ, scanFrac, setVal, getKnobIdx, esm1x2, extReady, initState, buf0, vals55]

/-- Witness for `C7_apply_broadcast_unclamped_then_query_all`: the
channel-slice broadcast `=0=999,7` on a one-channel two-knob configuration,
and the output shape of the same command. -/
theorem C7_apply_broadcast_unclamped_then_query_all_witness :
    (handleApplyCommand esm1x2 (extReady vals55)
        ['0', '=', '9', '9', '9', ',', '7']).1.values (getKnobIdx esm1x2 0 0 + ((0 : ℕ) : Int)) =
      (parseFloatList esm1x2.knobCount ['9', '9', '9', ',', '7']).getD 0 0 ∧
    (handleApplyCommand esm1x2 (extReady vals55) ['0', '=', '9', '9', '9', ',', '7']).2 =
      queryAllLines esm1x2
        (handleApplyCommand esm1x2 (extReady vals55)
          ['0', '=', '9', '9', '9', ',', '7']).1.values :=
  ⟨C7_apply_broadcast_unclamped_then_query_all.1 esm1x2 (extReady vals55)
      ['0', '=', '9', '9', '9', ',', '7'] 0 ['9', '9', '9', ',', '7'] (by decide) 0 (by decide),
   C7_apply_broadcast_unclamped_then_query_all.2.2.1 esm1x2 (extReady vals55)
      ['0', '=', '9', '9', '9', ',', '7']⟩
